import Mathlib

/-!
Shallow embedding of the `noble` attribute macro (src/noble/src/lib.rs).

The macro receives the token stream of one Rust item, parses it with
`syn` as an `Item`, dispatches on the item kind, and re-emits a token
stream built with `quote!`.  We model token streams as lists of token
strings (`Toks`), the relevant `syn` node types as Lean structures, and
each `wrap_*` function of the crate as a Lean function producing the
emitted token list.  `quote!` interpolation is modelled token for token;
in particular the template fragment `#struct_item.fields` in
`wrap_struct` interpolates the whole `struct_item` node followed by the
two literal tokens `.` `fields`, which is exactly how the `quote` crate
treats a `#var.field` occurrence (only the identifier after `#` is an
interpolation; the projection is emitted verbatim).
-/

/-- A token stream, as a list of token strings. -/
abbrev Toks := List String

/-- The open-brace token. -/
def lbr : String := "\x7b"

/-- The close-brace token. -/
def rbr : String := "\x7d"

/-- Tokens of a brace-delimited block: `syn::Block` keeps the statement
tokens; printing surrounds them with braces.  We represent a block by its
inner token list and render it with this function. -/
def renderBlock (b : Toks) : Toks := lbr :: b ++ [rbr]

/-- `syn::Generics` as the four token lists the crate actually uses:
the declaration generics `#generics`, and the three results of
`split_for_impl` (impl generics, type generics, where clause). -/
structure Generics where
  declTs : Toks
  implTs : Toks
  tyTs : Toks
  whereTs : Toks

/-- A function signature: the `unsafe` qualifier flag the transforms touch,
plus the remaining signature tokens (`fn name (args) -> ret`, etc.). -/
structure Signature where
  unsafety : Bool
  rest : Toks

/-- Printing of a signature: the optional `unsafe` token, then the rest. -/
def renderSig (sg : Signature) : Toks :=
  (if sg.unsafety then ["unsafe"] else []) ++ sg.rest

/-- `syn::ItemFn`. -/
structure ItemFn where
  attrs : Toks
  vis : Toks
  sig : Signature
  block : Toks

/-- `ToTokens` for `ItemFn`. -/
def renderItemFn (f : ItemFn) : Toks :=
  f.attrs ++ f.vis ++ renderSig f.sig ++ renderBlock f.block

/-- A named struct/variant field (`syn::Field` with `Some` ident). -/
structure FieldN where
  attrs : Toks
  vis : Toks
  name : String
  ty : Toks

/-- A positional struct/variant field (`syn::Field` with `None` ident). -/
structure FieldU where
  attrs : Toks
  vis : Toks
  ty : Toks

/-- `syn::Fields`. -/
inductive Fields where
  | named (fs : List FieldN)
  | unnamed (fs : List FieldU)
  | unit

/-- Comma-separate single tokens (a `quote!` repetition `#(#x),*`). -/
def sepComma : List String → Toks
  | [] => []
  | [x] => [x]
  | x :: xs => x :: "," :: sepComma xs

/-- Comma-separate `name : type` parameter pairs
(the repetition `#(#names: #types),*`). -/
def sepParams : List (String × Toks) → Toks
  | [] => []
  | [(n, t)] => n :: ":" :: t
  | (n, t) :: ps => n :: ":" :: t ++ "," :: sepParams ps

/-- Comma-separate token chunks (for punctuated field/variant lists). -/
def sepCommaToks : List Toks → Toks
  | [] => []
  | [t] => t
  | t :: ts => t ++ "," :: sepCommaToks ts

/-- `ToTokens` for a named field. -/
def renderFieldN (f : FieldN) : Toks := f.attrs ++ f.vis ++ f.name :: ":" :: f.ty

/-- `ToTokens` for a positional field. -/
def renderFieldU (f : FieldU) : Toks := f.attrs ++ f.vis ++ f.ty

/-- `syn::ItemStruct`. -/
structure ItemStruct where
  attrs : Toks
  vis : Toks
  ident : String
  generics : Generics
  fields : Fields

/-- `ToTokens` for `ItemStruct` (attrs, vis, `struct`, ident, generics;
then braces after the where clause for named fields, parentheses before
the where clause and a semicolon for tuple structs, just the where clause
and a semicolon for unit structs). -/
def renderItemStruct (s : ItemStruct) : Toks :=
  s.attrs ++ s.vis ++ ["struct", s.ident] ++ s.generics.declTs ++
    match s.fields with
    | .named fs => s.generics.whereTs ++ renderBlock (sepCommaToks (fs.map renderFieldN))
    | .unnamed fs =>
        "(" :: sepCommaToks (fs.map renderFieldU) ++ [")"] ++ s.generics.whereTs ++ [";"]
    | .unit => s.generics.whereTs ++ [";"]

/-- The `/// Unsafe constructor` doc comment of the generated constructor,
as the attribute token it expands to. -/
def docTok : String := "#[doc = \"Unsafe constructor\"]"

/-- Header tokens of the generated
`impl #impl_generics #name #ty_generics #where_clause` block. -/
def implHead (s : ItemStruct) : Toks :=
  "impl" :: s.generics.implTs ++ s.ident :: s.generics.tyTs ++ s.generics.whereTs ++ [lbr]

/-- The `constructor` token stream built by `wrap_struct`'s `match` over
the struct's fields (lib.rs lines 84-130), token for token. -/
def structCtor (s : ItemStruct) : Toks :=
  match s.fields with
  | .named fs =>
      let fieldNames := fs.map (·.name)
      let fieldTypes := fs.map (·.ty)
      implHead s ++ [docTok, "pub", "unsafe", "fn", "new_unsafe", "("] ++
        sepParams (fieldNames.zip fieldTypes) ++
        [")", "->", "Self", lbr, "unsafe", lbr, "Self", lbr] ++
        sepComma fieldNames ++ [rbr, rbr, rbr, rbr]
  | .unnamed fs =>
      let fieldTypes := fs.map (·.ty)
      let paramNames := (List.range fieldTypes.length).map fun i => "field_" ++ toString i
      implHead s ++ [docTok, "pub", "unsafe", "fn", "new_unsafe", "("] ++
        sepParams (paramNames.zip fieldTypes) ++
        [")", "->", "Self", lbr, "unsafe", lbr, "Self", "("] ++
        sepComma paramNames ++ [")", rbr, rbr, rbr]
  | .unit =>
      implHead s ++ [docTok, "pub", "unsafe", "fn", "new_unsafe", "(", ")", "->", "Self",
        lbr, "unsafe", lbr, "Self", rbr, rbr, rbr]

/-- `wrap_struct` (lib.rs lines 70-137).  The `original_struct` template is
`#(#attrs)* #vis struct #name #generics #struct_item.fields #where_clause`,
in which `#struct_item` interpolates the whole struct node and `.fields`
stays literal. -/
def wrap_struct (s : ItemStruct) : Toks :=
  let originalStruct :=
    s.attrs ++ s.vis ++ ["struct", s.ident] ++ s.generics.declTs ++
      renderItemStruct s ++ [".", "fields"] ++ s.generics.whereTs
  originalStruct ++ structCtor s

/-- `syn::Variant` (attributes, name, fields, optional discriminant). -/
structure Variant where
  attrs : Toks
  ident : String
  fields : Fields
  disc : Option Toks

/-- `ToTokens` for a variant. -/
def renderVariant (v : Variant) : Toks :=
  v.attrs ++ [v.ident] ++
    (match v.fields with
     | .named fs => renderBlock (sepCommaToks (fs.map renderFieldN))
     | .unnamed fs => "(" :: sepCommaToks (fs.map renderFieldU) ++ [")"]
     | .unit => []) ++
    (match v.disc with
     | some d => "=" :: d
     | none => [])

/-- `syn::ItemEnum`. -/
structure ItemEnum where
  attrs : Toks
  vis : Toks
  ident : String
  generics : Generics
  variants : List Variant

/-- `ToTokens` for `ItemEnum`; this coincides with the
`#(#attrs)* #vis enum #name #generics #where_clause { #variants }`
template of `wrap_enum`. -/
def renderItemEnum (e : ItemEnum) : Toks :=
  e.attrs ++ e.vis ++ ["enum", e.ident] ++ e.generics.declTs ++ e.generics.whereTs ++
    renderBlock (sepCommaToks (e.variants.map renderVariant))

/-- `str::to_lowercase` as used on variant identifiers: character-wise
lowercasing (identifiers are ASCII, where the two agree). -/
def lowerStr (s : String) : String := ⟨s.data.map Char.toLower⟩

/-- One per-variant constructor of `wrap_enum` (lib.rs lines 190-232),
token for token. -/
def variantCtor (v : Variant) : Toks :=
  let methodName := "new_" ++ lowerStr v.ident ++ "_unsafe"
  match v.fields with
  | .named fs =>
      let fieldNames := fs.map (·.name)
      let fieldTypes := fs.map (·.ty)
      ["pub", "unsafe", "fn", methodName, "("] ++ sepParams (fieldNames.zip fieldTypes) ++
        [")", "->", "Self", lbr, "Self", "::", v.ident, lbr] ++
        sepComma fieldNames ++ [rbr, rbr]
  | .unnamed fs =>
      let fieldTypes := fs.map (·.ty)
      let paramNames := (List.range fieldTypes.length).map fun i => "field_" ++ toString i
      ["pub", "unsafe", "fn", methodName, "("] ++ sepParams (paramNames.zip fieldTypes) ++
        [")", "->", "Self", lbr, "Self", "::", v.ident, "("] ++
        sepComma paramNames ++ [")", rbr]
  | .unit =>
      ["pub", "unsafe", "fn", methodName, "(", ")", "->", "Self",
        lbr, "Self", "::", v.ident, rbr]

/-- The `impl #impl_generics #name #ty_generics #where_clause { ... }` block
holding all variant constructors in `wrap_enum`'s final `quote!`. -/
def enumImplTokens (e : ItemEnum) : Toks :=
  "impl" :: e.generics.implTs ++ e.ident :: e.generics.tyTs ++ e.generics.whereTs ++
    renderBlock (e.variants.map variantCtor).flatten

/-- `wrap_enum` (lib.rs lines 173-242). -/
def wrap_enum (e : ItemEnum) : Toks :=
  let originalEnum :=
    e.attrs ++ e.vis ++ ["enum", e.ident] ++ e.generics.declTs ++ e.generics.whereTs ++
      renderBlock (sepCommaToks (e.variants.map renderVariant))
  originalEnum ++ enumImplTokens e

/-- `wrap_function` (lib.rs lines 57-68): the function's block becomes
`{ unsafe #original_block }` and the function is re-emitted. -/
def wrap_function (f : ItemFn) : Toks :=
  let originalBlock := f.block
  renderItemFn { f with block := "unsafe" :: renderBlock originalBlock }

/-- A trait method (`syn::TraitItemFn`): signature plus optional default body. -/
structure TraitItemFn where
  attrs : Toks
  sig : Signature
  default : Option Toks

/-- `syn::TraitItem`: the transform only touches `Fn` members. -/
inductive TraitItem where
  | fnItem (m : TraitItemFn)
  | otherItem (ts : Toks)

/-- `syn::ItemTrait`: the `unsafe` flag the transform sets, the header
tokens (`trait Name<...>: Super where ...`), and the member list. -/
structure ItemTrait where
  attrs : Toks
  vis : Toks
  unsafety : Bool
  header : Toks
  items : List TraitItem

/-- The loop body of `wrap_trait` for one `TraitItem::Fn` (lib.rs lines
247-260): set `sig.unsafety`, and wrap the default body when present. -/
def wrapTraitMember (m : TraitItemFn) : TraitItemFn :=
  let m1 : TraitItemFn := { m with sig := { m.sig with unsafety := true } }
  match m1.default with
  | some b => { m1 with default := some ("unsafe" :: renderBlock b) }
  | none => m1

/-- `wrap_trait`'s per-item action: only `Fn` members are rewritten. -/
def wrapTraitItemK : TraitItem → TraitItem
  | .fnItem m => .fnItem (wrapTraitMember m)
  | .otherItem ts => .otherItem ts

/-- The mutated trait node at the end of `wrap_trait` (lib.rs lines 244-266):
all members rewritten, and the trait itself marked `unsafe`. -/
def wrapTraitNode (t : ItemTrait) : ItemTrait :=
  { t with items := t.items.map wrapTraitItemK, unsafety := true }

/-- `ToTokens` for a trait member. -/
def renderTraitItem : TraitItem → Toks
  | .fnItem m =>
      m.attrs ++ renderSig m.sig ++
        (match m.default with
         | some b => renderBlock b
         | none => [";"])
  | .otherItem ts => ts

/-- `ToTokens` for `ItemTrait`. -/
def renderItemTrait (t : ItemTrait) : Toks :=
  t.attrs ++ t.vis ++ (if t.unsafety then ["unsafe"] else []) ++ t.header ++
    renderBlock (t.items.map renderTraitItem).flatten

/-- `wrap_trait` (lib.rs lines 244-267): mutate the node, then `quote!` it. -/
def wrap_trait (t : ItemTrait) : Toks := renderItemTrait (wrapTraitNode t)

/-- A method in an impl block (`syn::ImplItemFn`). -/
structure ImplItemFn where
  attrs : Toks
  vis : Toks
  sig : Signature
  block : Toks

/-- `syn::ImplItem`: the transform only touches `Fn` members. -/
inductive ImplItem where
  | fnItem (m : ImplItemFn)
  | otherItem (ts : Toks)

/-- `syn::ItemImpl`: `unsafety` flag, generics tokens after `impl`, the
optional trait path (`Some` for `impl Trait for Type`), the self type,
the where clause, and the member list. -/
structure ItemImpl where
  attrs : Toks
  unsafety : Bool
  genericsTs : Toks
  traitTs : Option Toks
  selfTy : Toks
  whereTs : Toks
  items : List ImplItem

/-- The loop body of `wrap_impl` for one `ImplItem::Fn`: the method's
block becomes `{ unsafe #original_block }`. -/
def wrapImplMember (m : ImplItemFn) : ImplItemFn :=
  { m with block := "unsafe" :: renderBlock m.block }

/-- `wrap_impl`'s per-item action: only `Fn` members are rewritten. -/
def wrapImplItemK : ImplItem → ImplItem
  | .fnItem m => .fnItem (wrapImplMember m)
  | .otherItem ts => .otherItem ts

/-- The mutated impl node at the end of `wrap_impl` (lib.rs lines 139-171):
for a trait impl, `unsafety` is set and all method bodies are wrapped; for
an inherent impl only the method bodies are wrapped (the two branches of
the source both run the same wrapping loop). -/
def wrapImplNode (ii : ItemImpl) : ItemImpl :=
  if ii.traitTs.isSome then
    { ii with unsafety := true, items := ii.items.map wrapImplItemK }
  else
    { ii with items := ii.items.map wrapImplItemK }

/-- `ToTokens` for an impl member. -/
def renderImplItem : ImplItem → Toks
  | .fnItem m => m.attrs ++ m.vis ++ renderSig m.sig ++ renderBlock m.block
  | .otherItem ts => ts

/-- `ToTokens` for `ItemImpl`. -/
def renderItemImpl (ii : ItemImpl) : Toks :=
  ii.attrs ++ (if ii.unsafety then ["unsafe"] else []) ++ "impl" :: ii.genericsTs ++
    (match ii.traitTs with
     | some tr => tr ++ ["for"]
     | none => []) ++
    ii.selfTy ++ ii.whereTs ++ renderBlock (ii.items.map renderImplItem).flatten

/-- `wrap_impl` (lib.rs lines 139-171). -/
def wrap_impl (ii : ItemImpl) : Toks := renderItemImpl (wrapImplNode ii)

/-- `syn::Item`, restricted to the shapes the macro distinguishes; every
other item kind is carried as its plain token stream. -/
inductive Item where
  | Fn (f : ItemFn)
  | Struct (s : ItemStruct)
  | Impl (ii : ItemImpl)
  | Enum (e : ItemEnum)
  | Trait (t : ItemTrait)
  | Other (ts : Toks)

/-- `ToTokens` for `Item`: the token stream the host hands to the macro
for this item (its input text). -/
def renderItem : Item → Toks
  | .Fn f => renderItemFn f
  | .Struct s => renderItemStruct s
  | .Impl ii => renderItemImpl ii
  | .Enum e => renderItemEnum e
  | .Trait t => renderItemTrait t
  | .Other ts => ts

/-- The dispatch of `noble` (lib.rs lines 44-54): the fallback arm
`quote! { #item }` re-emits an unrecognized item's own tokens. -/
def noble : Item → Toks
  | .Fn f => wrap_function f
  | .Struct s => wrap_struct s
  | .Impl ii => wrap_impl ii
  | .Enum e => wrap_enum e
  | .Trait t => wrap_trait t
  | .Other ts => ts

/-- The single failure mode of the macro: `parse_macro_input!` rejecting
text that is not an item. -/
inductive NobleError where
  | MalformedDeclaration

/-- One whole invocation (lib.rs lines 41-55): `parse_macro_input!` either
fails (modelled as the `none` parse result, surfaced as a compile error)
or yields an item which is dispatched; every dispatch arm returns tokens. -/
def nobleRun : Option Item → Except NobleError Toks
  | none => Except.error NobleError.MalformedDeclaration
  | some it => Except.ok (noble it)

/-- The process-wide mutable state of the crate.  The crate declares no
`static` items and performs no I/O, so the state is empty. -/
abbrev GlobalState := Unit

/-- One invocation as a state transformer over the (empty) process state. -/
def nobleInvoke (st : GlobalState) (inp : Option Item) :
    Except NobleError Toks × GlobalState :=
  (nobleRun inp, st)

/-- A sequence of invocations, threading the process state through. -/
def runNoble : GlobalState → List (Option Item) → List (Except NobleError Toks)
  | _, [] => []
  | st, inp :: rest =>
      let r := nobleInvoke st inp
      r.1 :: runNoble r.2 rest

/-- Spec §4.3/§4.4 parameter rule: one parameter per field, named fields
keep their own name and type, positional fields are named `field_i` with
the field's type, in field order. -/
def ctorParams : Fields → List (String × Toks)
  | .named fs => fs.map fun f => (f.name, f.ty)
  | .unnamed fs => (fs.map (·.ty)).enum.map fun p => ("field_" ++ toString p.1, p.2)
  | .unit => []

/-- The number of fields of a field list. -/
def numFields : Fields → Nat
  | .named fs => fs.length
  | .unnamed fs => fs.length
  | .unit => 0

/-- The record-construction expression of the synthesized struct
constructor (`Self { .. }`, `Self(..)`, or `Self`). -/
def selfExpr : Fields → Toks
  | .named fs => "Self" :: lbr :: sepComma (fs.map (·.name)) ++ [rbr]
  | .unnamed fs =>
      "Self" :: "(" ::
        sepComma ((List.range fs.length).map fun i => "field_" ++ toString i) ++ [")"]
  | .unit => ["Self"]

/-- The variant-construction expression of a synthesized enum constructor
(`Self::V { .. }`, `Self::V(..)`, or `Self::V`). -/
def variantSelfExpr (v : Variant) : Toks :=
  match v.fields with
  | .named fs => "Self" :: "::" :: v.ident :: lbr :: sepComma (fs.map (·.name)) ++ [rbr]
  | .unnamed fs =>
      "Self" :: "::" :: v.ident :: "(" ::
        sepComma ((List.range fs.length).map fun i => "field_" ++ toString i) ++ [")"]
  | .unit => ["Self", "::", v.ident]

/-- Replace the visibility of every field (used to state that the
synthesized constructors ignore field visibility). -/
def setFieldsVis (v : Toks) : Fields → Fields
  | .named fs => .named (fs.map fun f => { f with vis := v })
  | .unnamed fs => .unnamed (fs.map fun f => { f with vis := v })
  | .unit => .unit

/-- The concrete input `struct Foo { x: i32 }`. -/
def fooStruct : ItemStruct :=
  { attrs := []
    vis := []
    ident := "Foo"
    generics := { declTs := [], implTs := [], tyTs := [], whereTs := [] }
    fields := Fields.named [{ attrs := [], vis := [], name := "x", ty := ["i32"] }] }

lemma zip_names_tys (fs : List FieldN) :
    (fs.map (·.name)).zip (fs.map (·.ty)) = fs.map fun f => (f.name, f.ty) := by
  induction fs with
  | nil => rfl
  | cons f fs ih => simp [ih]

lemma zip_range_map {α : Type} (f : Nat → String) (l : List α) :
    ((List.range l.length).map f).zip l = l.enum.map fun p => (f p.1, p.2) := by
  rw [List.enum_eq_zip_range, List.zip_map_left]
  simp [Prod.map]

lemma structCtor_spec (s : ItemStruct) :
    structCtor s =
      implHead s ++ docTok :: "pub" :: "unsafe" :: "fn" :: "new_unsafe" :: "(" ::
        (sepParams (ctorParams s.fields) ++ [")", "->", "Self"] ++
          renderBlock ("unsafe" :: renderBlock (selfExpr s.fields)) ++ [rbr]) := by
  cases hf : s.fields with
  | named fsn =>
      simp [structCtor, hf, ctorParams, selfExpr, renderBlock, zip_names_tys]
  | unnamed fsu =>
      simp only [structCtor, hf, ctorParams, selfExpr]
      rw [zip_range_map]
      simp [renderBlock]
  | unit =>
      simp [structCtor, hf, ctorParams, selfExpr, renderBlock, sepParams]

lemma variantCtor_spec (v : Variant) :
    variantCtor v =
      "pub" :: "unsafe" :: "fn" :: ("new_" ++ lowerStr v.ident ++ "_unsafe") :: "(" ::
        (sepParams (ctorParams v.fields) ++ [")", "->", "Self"] ++
          renderBlock (variantSelfExpr v)) := by
  cases hf : v.fields with
  | named fsn =>
      simp [variantCtor, hf, ctorParams, variantSelfExpr, renderBlock, zip_names_tys]
  | unnamed fsu =>
      simp only [variantCtor, hf, ctorParams, variantSelfExpr]
      rw [zip_range_map]
      simp [renderBlock]
  | unit =>
      simp [variantCtor, hf, ctorParams, variantSelfExpr, renderBlock, sepParams]

lemma comp_name_setVis (fv : Toks) :
    ((fun x : FieldN => x.name) ∘ fun f : FieldN => { f with vis := fv }) =
      fun x : FieldN => x.name := by
  funext f; rfl

lemma comp_tyN_setVis (fv : Toks) :
    ((fun x : FieldN => x.ty) ∘ fun f : FieldN => { f with vis := fv }) =
      fun x : FieldN => x.ty := by
  funext f; rfl

lemma comp_tyU_setVis (fv : Toks) :
    ((fun x : FieldU => x.ty) ∘ fun f : FieldU => { f with vis := fv }) =
      fun x : FieldU => x.ty := by
  funext f; rfl

lemma ctorParams_setVis (fv : Toks) (fl : Fields) :
    ctorParams (setFieldsVis fv fl) = ctorParams fl := by
  cases fl <;>
    simp [ctorParams, setFieldsVis, List.map_map, Function.comp_def]

lemma selfExpr_setVis (fv : Toks) (fl : Fields) :
    selfExpr (setFieldsVis fv fl) = selfExpr fl := by
  cases fl <;>
    simp [selfExpr, setFieldsVis, List.map_map, Function.comp_def]

lemma runNoble_eq_map (st : GlobalState) (l : List (Option Item)) :
    runNoble st l = l.map nobleRun := by
  induction l generalizing st with
  | nil => rfl
  | cons a l ih => simp [runNoble, nobleInvoke, ih]

/-- Claim C2: transforming a routine yields a routine with the identical
attributes, visibility and signature, whose body is a single block that is
the `unsafe` marker applied to exactly the original body, with nothing
emitted after it; the transform is a total function, so it succeeds for
every body, including the empty one. -/
theorem C2_routine_body_wrapped (f : ItemFn) :
    wrap_function f =
      f.attrs ++ f.vis ++ renderSig f.sig ++
        (lbr :: "unsafe" :: lbr :: (f.block ++ [rbr, rbr])) := by
  simp [wrap_function, renderItemFn, renderBlock]

/-- Claim C1 (code bug): on the input `struct Foo { x: i32 }` the output of
`wrap_struct` does not begin with the original record; the `quote!`
template interpolates the whole struct node after the `struct Foo` header
(before the literal `. fields` tokens), so the emitted text starts
`struct Foo struct Foo ...` instead of the unchanged record. -/
theorem C1_struct_original_corrupted :
    (wrap_struct fooStruct).take 4 = ["struct", "Foo", "struct", "Foo"] ∧
    renderItemStruct fooStruct = ["struct", "Foo", lbr, "x", ":", "i32", rbr] ∧
    (wrap_struct fooStruct).take 4 ≠ (renderItemStruct fooStruct).take 4 := by
  refine ⟨?_, ?_, ?_⟩ <;> decide

/-- Claim C3: the synthesized struct constructor is named `new_unsafe` and
takes exactly one parameter per field, in field order — named fields keep
their own name and type, positional fields are named `field_0 …
field_.N-1.` with the field's type, a fieldless record gets the empty
parameter list — and in every case the constructor body is the `unsafe`
marker applied to the record-construction expression. -/
theorem C3_struct_ctor_shape (s : ItemStruct) (fs : List FieldU) (i : Nat) :
    structCtor s =
      implHead s ++ docTok :: "pub" :: "unsafe" :: "fn" :: "new_unsafe" :: "(" ::
        (sepParams (ctorParams s.fields) ++ [")", "->", "Self"] ++
          renderBlock ("unsafe" :: renderBlock (selfExpr s.fields)) ++ [rbr]) ∧
    (ctorParams s.fields).length = numFields s.fields ∧
    (ctorParams (Fields.unnamed fs))[i]? =
      fs[i]?.map (fun f => ("field_" ++ toString i, f.ty)) ∧
    ctorParams Fields.unit = [] := by
  refine ⟨structCtor_spec s, ?_, ?_, rfl⟩
  · cases s.fields <;> simp [ctorParams, numFields]
  · cases hx : fs[i]? <;> simp [ctorParams, List.getElem?_enum, hx]

/-- Claim C4: `wrap_enum` emits the original enum unchanged followed by one
impl block holding exactly one constructor per variant, in variant order;
the constructor for variant `V` is named `new_<lowercase V>_unsafe`, its
parameters follow the same named/positional rule as for records, and its
body is a single block that directly builds `Self::V` with no `unsafe`
marker inside (for example the unit variant `Idle` yields
`new_idle_unsafe()` producing `Self::Idle`). -/
theorem C4_enum_variant_ctors (e : ItemEnum) (v : Variant) :
    wrap_enum e =
      renderItemEnum e ++ "impl" :: e.generics.implTs ++ e.ident :: e.generics.tyTs ++
        e.generics.whereTs ++ renderBlock (e.variants.map variantCtor).flatten ∧
    (e.variants.map variantCtor).length = e.variants.length ∧
    variantCtor v =
      "pub" :: "unsafe" :: "fn" :: ("new_" ++ lowerStr v.ident ++ "_unsafe") :: "(" ::
        (sepParams (ctorParams v.fields) ++ [")", "->", "Self"] ++
          renderBlock (variantSelfExpr v)) ∧
    (variantSelfExpr v).head? = some "Self" ∧
    variantCtor { attrs := [], ident := "Idle", fields := Fields.unit, disc := none } =
      ["pub", "unsafe", "fn", "new_idle_unsafe", "(", ")", "->", "Self",
        lbr, "Self", "::", "Idle", rbr] := by
  refine ⟨?_, by simp, variantCtor_spec v, ?_, by decide⟩
  · simp [wrap_enum, renderItemEnum, enumImplTokens]
  · cases hf : v.fields <;> simp [variantSelfExpr, hf]

/-- Claim C5: after `wrap_trait` the trait node itself carries the `unsafe`
qualifier, every method member's signature carries the `unsafe` qualifier
with the rest of the signature unchanged, a default body when present is
replaced by the `unsafe` marker applied to the original body, a member
without a default body stays bodyless, non-method members are untouched,
and the output is the re-emission of exactly this rewritten node. -/
theorem C5_trait_elevated (t : ItemTrait) (m : TraitItemFn) (ts : Toks) :
    (wrapTraitNode t).unsafety = true ∧
    (wrapTraitNode t).items = t.items.map wrapTraitItemK ∧
    (wrapTraitMember m).sig.unsafety = true ∧
    (wrapTraitMember m).sig.rest = m.sig.rest ∧
    (wrapTraitMember m).attrs = m.attrs ∧
    (wrapTraitMember m).default = m.default.map (fun b => "unsafe" :: lbr :: (b ++ [rbr])) ∧
    (wrapTraitMember m).default.isNone = m.default.isNone ∧
    wrapTraitItemK (TraitItem.otherItem ts) = TraitItem.otherItem ts ∧
    wrap_trait t = renderItemTrait (wrapTraitNode t) := by
  obtain ⟨a, sg, d⟩ := m
  cases d <;> simp [wrapTraitNode, wrapTraitMember, wrapTraitItemK, wrap_trait, renderBlock]

/-- Claim C6: `wrap_impl` marks the impl block `unsafe` exactly when it is
a trait implementation (a contract-free block keeps its original block
qualifier), and in both cases every method member's body is replaced by
the `unsafe` marker applied to the original body while its attributes,
visibility and signature stay unchanged; non-method members are untouched. -/
theorem C6_impl_elevated (ii : ItemImpl) (m : ImplItemFn) (ts : Toks) :
    (wrapImplNode ii).unsafety = (if ii.traitTs.isSome then true else ii.unsafety) ∧
    (wrapImplNode ii).items = ii.items.map wrapImplItemK ∧
    (wrapImplNode ii).traitTs = ii.traitTs ∧
    (wrapImplMember m).block = "unsafe" :: lbr :: (m.block ++ [rbr]) ∧
    (wrapImplMember m).sig = m.sig ∧
    (wrapImplMember m).vis = m.vis ∧
    (wrapImplMember m).attrs = m.attrs ∧
    wrapImplItemK (ImplItem.otherItem ts) = ImplItem.otherItem ts ∧
    wrap_impl ii = renderItemImpl (wrapImplNode ii) := by
  by_cases h : ii.traitTs.isSome <;>
    simp [wrapImplNode, wrapImplMember, wrapImplItemK, wrap_impl, renderBlock, h]

/-- Claim C7: an item outside the five recognized shapes is re-emitted with
its own token stream, so the output text equals the input text, and the
invocation succeeds (passthrough is not a failure path). -/
theorem C7_other_passthrough (ts : Toks) :
    noble (Item.Other ts) = renderItem (Item.Other ts) ∧
    nobleRun (some (Item.Other ts)) = Except.ok ts ∧
    (nobleRun (some (Item.Other ts))).isOk = true := by
  exact ⟨rfl, rfl, rfl⟩

/-- Claim C8: an invocation fails if and only if the input text does not
parse as an item, the only failure is `MalformedDeclaration` (the error
type has no other inhabitant), and every parsed item yields a successful
output. -/
theorem C8_malformed_iff_no_parse (p : Option Item) :
    (nobleRun p = Except.error NobleError.MalformedDeclaration ↔ p = none) ∧
    ((nobleRun p).isOk ↔ p.isSome) ∧
    (∀ e : NobleError, e = NobleError.MalformedDeclaration) := by
  refine ⟨?_, ?_, fun e => by cases e; rfl⟩ <;>
    cases p <;> simp [nobleRun, Except.isOk, Except.toBool]

/-- Claim C9: an invocation is a pure function of its input text — running
any sequence of invocations from any process state produces exactly the
per-input outputs, two runs of the same sequence agree regardless of the
starting state, and the output of an invocation is the same whatever other
invocations are interleaved before or after it. -/
theorem C9_pure_and_stateless (st st' : GlobalState) (l pre post : List (Option Item))
    (p : Option Item) :
    runNoble st l = runNoble st' l ∧
    runNoble st l = l.map nobleRun ∧
    (runNoble st (pre ++ p :: post))[pre.length]? = some (nobleRun p) := by
  refine ⟨(runNoble_eq_map st l).trans (runNoble_eq_map st' l).symm,
    runNoble_eq_map st l, ?_⟩
  rw [runNoble_eq_map]
  induction pre with
  | nil => simp
  | cons a t ih => simpa using ih

/-- Claim C10 (implicit): every synthesized constructor is emitted with the
`pub` and `unsafe` qualifiers, and its tokens are unaffected by the
visibility of the original type or of its fields. -/
theorem C10_ctors_pub_and_elevated (s : ItemStruct) (e : ItemEnum) (vs ve fv : Toks)
    (v : Variant) :
    structCtor { s with vis := vs } = structCtor s ∧
    structCtor { s with fields := setFieldsVis fv s.fields } = structCtor s ∧
    (∃ rest, structCtor s =
        implHead s ++ docTok :: "pub" :: "unsafe" :: "fn" :: "new_unsafe" :: rest) ∧
    enumImplTokens { e with vis := ve } = enumImplTokens e ∧
    (variantCtor v).take 3 = ["pub", "unsafe", "fn"] ∧
    variantCtor { v with fields := setFieldsVis fv v.fields } = variantCtor v := by
  refine ⟨rfl, ?_, ⟨_, structCtor_spec s⟩, rfl, ?_, ?_⟩
  · rw [structCtor_spec, structCtor_spec]
    simp [ctorParams_setVis, selfExpr_setVis, implHead]
  · rw [variantCtor_spec]
    rfl
  · rw [variantCtor_spec, variantCtor_spec]
    simp [ctorParams_setVis]
    cases hf : v.fields <;>
      simp [variantSelfExpr, setFieldsVis, hf, List.map_map, Function.comp_def]
